import Mathlib

/-!
Verification of the proof-of-work difficulty engine of digitalcoin
(src/pow.cpp) against its natural-language specification.

The repository ships only src/pow.cpp; the 256-bit arithmetic library
(uint256.h with SetCompact and GetCompact), the chain parameters, the block
index and the NUM_ALGOS / fork-height constants live outside the provided
sources. Those parts are modelled from the specification (sections 3, 4.2
and 6), as marked on each definition. Everything else is translated
directly from src/pow.cpp; line numbers in comments refer to that file.

Machine integers are embedded as Nat (for the unsigned 256-bit Target,
with explicit reduction modulo 2 ^ 256 where the machine wraps) and as Int
(for int64_t quantities, with Int.tdiv / Int.tmod for the C++ truncating
division and remainder). A function that can fail to return normally
(null-pointer dereference, a failed assertion, or control falling off the
end of a non-void function) is embedded with result type Option: none
means the call does not produce a value.
-/

namespace Digitalcoin

/-! ## Compact target codec (modelled from the spec) -/

/-- Modelled from the spec: section 4.2 compact codec, decode value.
The upstream uint256.SetCompact is not part of the provided sources.
The exponent is the high byte of the 32-bit compact word, the value
mantissa is its low 23 bits (bit 0x00800000 is the embedded sign bit and
does not contribute to the value); an exponent of at most 3 shifts the
mantissa right by 8 * (3 - exponent) bits, a larger exponent shifts it
left by 8 * (exponent - 3) bits inside the 256-bit word. -/
def setCompactValue (nBits : Nat) : Nat :=
  if nBits / 2 ^ 24 ≤ 3 then nBits % 2 ^ 23 / 2 ^ (8 * (3 - nBits / 2 ^ 24))
  else nBits % 2 ^ 23 * 2 ^ (8 * (nBits / 2 ^ 24 - 3)) % 2 ^ 256

/-- Modelled from the spec: section 4.2, the isNegative decode flag — true
iff bit 0x00800000 of the raw mantissa (the low 3 bytes) is set. -/
def setCompactNegative (nBits : Nat) : Bool :=
  decide (nBits / 2 ^ 23 % 2 = 1)

/-- Modelled from the spec: section 4.2, the isOverflow decode flag — true
iff the left shift would place non-zero mantissa bits above bit 255, that
is, the exact shifted value does not fit below 2 ^ 256. -/
def setCompactOverflow (nBits : Nat) : Bool :=
  decide (nBits % 2 ^ 23 ≠ 0 ∧ 3 < nBits / 2 ^ 24 ∧
    2 ^ 256 ≤ nBits % 2 ^ 23 * 2 ^ (8 * (nBits / 2 ^ 24 - 3)))

/-- Byte length of a natural number, with an explicit recursion budget so
that the definition is structural and evaluates inside the kernel. The
budget 64 covers every number below 256 ^ 64, far above the 256-bit range
the codec is used on. -/
def byteLenAux : Nat → Nat → Nat
  | 0, _ => 0
  | fuel + 1, x => if x = 0 then 0 else byteLenAux fuel (x / 256) + 1

/-- Number of bytes needed to represent x, as the upstream bits-to-bytes
computation (bits() + 7) / 8 produces. -/
def byteLen (x : Nat) : Nat := byteLenAux 64 x

/-- Modelled from the spec: section 4.2 compact codec, encode. The minimal
exponent is the byte length of the target; the mantissa is the target
shifted into 3 bytes; if the top mantissa bit (the embedded sign bit)
would be set, the mantissa is shifted right one byte and the exponent is
incremented. Since the pre-adjustment mantissa is below 2 ^ 24, testing
bit 0x00800000 is the same as comparing with 2 ^ 23. -/
def getCompact (x : Nat) : Nat :=
  if 2 ^ 23 ≤ (if byteLen x ≤ 3 then x * 2 ^ (8 * (3 - byteLen x))
      else x / 2 ^ (8 * (byteLen x - 3))) then
    (if byteLen x ≤ 3 then x * 2 ^ (8 * (3 - byteLen x))
      else x / 2 ^ (8 * (byteLen x - 3))) / 2 ^ 8 + (byteLen x + 1) * 2 ^ 24
  else
    (if byteLen x ≤ 3 then x * 2 ^ (8 * (3 - byteLen x))
      else x / 2 ^ (8 * (byteLen x - 3))) + byteLen x * 2 ^ 24

/-! ## Codec lemmas -/

theorem byteLenAux_lt (fuel : Nat) : ∀ x : Nat, x < 256 ^ fuel → x < 256 ^ byteLenAux fuel x := by
  induction fuel with
  | zero => intro x hx; simpa [byteLenAux] using hx
  | succ n ih =>
    intro x hx
    by_cases h0 : x = 0
    · simp [byteLenAux, h0]
    · have hdiv : x / 256 < 256 ^ n := by
        rw [Nat.div_lt_iff_lt_mul (by norm_num)]
        calc x < 256 ^ (n + 1) := hx
        _ = 256 ^ n * 256 := by ring
      have hrec := ih (x / 256) hdiv
      have hstep : x < 256 ^ (byteLenAux n (x / 256) + 1) := by
        have hx256 : x < (x / 256 + 1) * 256 := by omega
        calc x < (x / 256 + 1) * 256 := hx256
        _ ≤ 256 ^ byteLenAux n (x / 256) * 256 := Nat.mul_le_mul_right 256 (by omega)
        _ = 256 ^ (byteLenAux n (x / 256) + 1) := by ring
      simpa [byteLenAux, h0] using hstep

theorem byteLen_lt (x : Nat) (hx : x < 256 ^ 64) : x < 256 ^ byteLen x :=
  byteLenAux_lt 64 x hx

theorem setCompactValue_lt (nBits : Nat) : setCompactValue nBits < 2 ^ 256 := by
  unfold setCompactValue
  split
  · calc nBits % 2 ^ 23 / 2 ^ (8 * (3 - nBits / 2 ^ 24)) ≤ nBits % 2 ^ 23 := Nat.div_le_self _ _
    _ < 2 ^ 23 := Nat.mod_lt _ (by norm_num)
    _ < 2 ^ 256 := by norm_num
  · exact Nat.mod_lt _ (by positivity)

/-- Decoding an encoded target never exceeds the original: the encoder only
truncates low-order bits. Stated for targets in the 256-bit range. -/
theorem setCompact_getCompact_le (x : Nat) (hx : x < 256 ^ 64) :
    setCompactValue (getCompact x) ≤ x := by
  have hsz2 : x < 2 ^ (8 * byteLen x) := by
    have h := byteLen_lt x hx
    have e : (256 : Nat) ^ byteLen x = 2 ^ (8 * byteLen x) := by
      rw [show (256 : Nat) = 2 ^ 8 by norm_num, ← pow_mul]
    omega
  unfold getCompact
  generalize hgen : byteLen x = n at hsz2 ⊢
  by_cases h3 : n ≤ 3
  · -- small targets: the mantissa is the target shifted left
    have hlt24 : x * 2 ^ (8 * (3 - n)) < 2 ^ 24 := by
      have he : 2 ^ (8 * n) * 2 ^ (8 * (3 - n)) = 2 ^ 24 := by
        rw [← pow_add]; congr 1; omega
      calc x * 2 ^ (8 * (3 - n)) < 2 ^ (8 * n) * 2 ^ (8 * (3 - n)) :=
            mul_lt_mul_of_pos_right hsz2 (by positivity)
      _ = 2 ^ 24 := he
    simp only [if_pos h3]
    by_cases hbump : 2 ^ 23 ≤ x * 2 ^ (8 * (3 - n))
    · simp only [if_pos hbump]
      unfold setCompactValue
      have hc8 : x * 2 ^ (8 * (3 - n)) / 2 ^ 8 < 2 ^ 16 := by
        rw [Nat.div_lt_iff_lt_mul (by norm_num)]
        calc x * 2 ^ (8 * (3 - n)) < 2 ^ 24 := hlt24
        _ = 2 ^ 16 * 2 ^ 8 := by norm_num
      have hsize : (x * 2 ^ (8 * (3 - n)) / 2 ^ 8 + (n + 1) * 2 ^ 24) / 2 ^ 24 = n + 1 := by
        rw [Nat.add_mul_div_right _ _ (by norm_num : 0 < 2 ^ 24)]
        have : x * 2 ^ (8 * (3 - n)) / 2 ^ 8 / 2 ^ 24 = 0 := by
          apply Nat.div_eq_of_lt; omega
        omega
      have hword : (x * 2 ^ (8 * (3 - n)) / 2 ^ 8 + (n + 1) * 2 ^ 24) % 2 ^ 23 =
          x * 2 ^ (8 * (3 - n)) / 2 ^ 8 := by
        have h1 : (n + 1) * 2 ^ 24 = (n + 1) * 2 * 2 ^ 23 := by ring
        rw [h1, Nat.add_mul_mod_self_right]
        apply Nat.mod_eq_of_lt; omega
      rw [hsize, hword]
      by_cases hn2 : n + 1 ≤ 3
      · -- the exponent is still at most 3: decode shifts right the rest of the way
        simp only [if_pos hn2]
        have hexp : 2 ^ 8 * 2 ^ (8 * (3 - (n + 1))) = 2 ^ (8 * (3 - n)) := by
          rw [← pow_add]; congr 1; omega
        calc x * 2 ^ (8 * (3 - n)) / 2 ^ 8 / 2 ^ (8 * (3 - (n + 1)))
            = x * 2 ^ (8 * (3 - n)) / (2 ^ 8 * 2 ^ (8 * (3 - (n + 1)))) :=
              Nat.div_div_eq_div_mul _ _ _
        _ = x * 2 ^ (8 * (3 - n)) / 2 ^ (8 * (3 - n)) := by rw [hexp]
        _ = x := Nat.mul_div_cancel x (by positivity)
        _ ≤ x := le_rfl
      · -- the bump pushed the exponent to 4 (n = 3, the shift was zero)
        have hn3 : n = 3 := by omega
        simp only [if_neg hn2]
        rw [hn3]
        norm_num
        calc x / 2 ^ 8 * 2 ^ 8 % 2 ^ 256 ≤ x / 2 ^ 8 * 2 ^ 8 := Nat.mod_le _ _
        _ ≤ x := Nat.div_mul_le_self x _
    · simp only [if_neg hbump]
      unfold setCompactValue
      have hsize : (x * 2 ^ (8 * (3 - n)) + n * 2 ^ 24) / 2 ^ 24 = n := by
        rw [Nat.add_mul_div_right _ _ (by norm_num : 0 < 2 ^ 24)]
        have : x * 2 ^ (8 * (3 - n)) / 2 ^ 24 = 0 := Nat.div_eq_of_lt hlt24
        omega
      have hword : (x * 2 ^ (8 * (3 - n)) + n * 2 ^ 24) % 2 ^ 23 = x * 2 ^ (8 * (3 - n)) := by
        have h1 : n * 2 ^ 24 = n * 2 * 2 ^ 23 := by ring
        rw [h1, Nat.add_mul_mod_self_right]
        apply Nat.mod_eq_of_lt; omega
      rw [hsize, hword, if_pos h3]
      calc x * 2 ^ (8 * (3 - n)) / 2 ^ (8 * (3 - n)) = x :=
            Nat.mul_div_cancel x (by positivity)
      _ ≤ x := le_rfl
  · -- large targets: the mantissa is the target shifted right
    have hlt24 : x / 2 ^ (8 * (n - 3)) < 2 ^ 24 := by
      rw [Nat.div_lt_iff_lt_mul (by positivity)]
      have he : (2 : Nat) ^ 24 * 2 ^ (8 * (n - 3)) = 2 ^ (8 * n) := by
        rw [← pow_add]; congr 1; omega
      omega
    simp only [if_neg h3]
    by_cases hbump : 2 ^ 23 ≤ x / 2 ^ (8 * (n - 3))
    · simp only [if_pos hbump]
      unfold setCompactValue
      have hc8 : x / 2 ^ (8 * (n - 3)) / 2 ^ 8 < 2 ^ 16 := by
        rw [Nat.div_lt_iff_lt_mul (by norm_num)]
        calc x / 2 ^ (8 * (n - 3)) < 2 ^ 24 := hlt24
        _ = 2 ^ 16 * 2 ^ 8 := by norm_num
      have hsize : (x / 2 ^ (8 * (n - 3)) / 2 ^ 8 + (n + 1) * 2 ^ 24) / 2 ^ 24 = n + 1 := by
        rw [Nat.add_mul_div_right _ _ (by norm_num : 0 < 2 ^ 24)]
        have : x / 2 ^ (8 * (n - 3)) / 2 ^ 8 / 2 ^ 24 = 0 := by
          apply Nat.div_eq_of_lt; omega
        omega
      have hword : (x / 2 ^ (8 * (n - 3)) / 2 ^ 8 + (n + 1) * 2 ^ 24) % 2 ^ 23 =
          x / 2 ^ (8 * (n - 3)) / 2 ^ 8 := by
        have h1 : (n + 1) * 2 ^ 24 = (n + 1) * 2 * 2 ^ 23 := by ring
        rw [h1, Nat.add_mul_mod_self_right]
        apply Nat.mod_eq_of_lt; omega
      rw [hsize, hword]
      have hn4 : ¬ n + 1 ≤ 3 := by omega
      simp only [if_neg hn4]
      have hdd : x / 2 ^ (8 * (n - 3)) / 2 ^ 8 = x / 2 ^ (8 * (n + 1 - 3)) := by
        rw [Nat.div_div_eq_div_mul, ← pow_add]
        congr 2; omega
      rw [hdd]
      calc x / 2 ^ (8 * (n + 1 - 3)) * 2 ^ (8 * (n + 1 - 3)) % 2 ^ 256
          ≤ x / 2 ^ (8 * (n + 1 - 3)) * 2 ^ (8 * (n + 1 - 3)) := Nat.mod_le _ _
      _ ≤ x := Nat.div_mul_le_self x _
    · simp only [if_neg hbump]
      unfold setCompactValue
      have hsize : (x / 2 ^ (8 * (n - 3)) + n * 2 ^ 24) / 2 ^ 24 = n := by
        rw [Nat.add_mul_div_right _ _ (by norm_num : 0 < 2 ^ 24)]
        have : x / 2 ^ (8 * (n - 3)) / 2 ^ 24 = 0 := Nat.div_eq_of_lt hlt24
        omega
      have hword : (x / 2 ^ (8 * (n - 3)) + n * 2 ^ 24) % 2 ^ 23 = x / 2 ^ (8 * (n - 3)) := by
        have h1 : n * 2 ^ 24 = n * 2 * 2 ^ 23 := by ring
        rw [h1, Nat.add_mul_mod_self_right]
        apply Nat.mod_eq_of_lt; omega
      rw [hsize, hword, if_neg h3]
      calc x / 2 ^ (8 * (n - 3)) * 2 ^ (8 * (n - 3)) % 2 ^ 256
          ≤ x / 2 ^ (8 * (n - 3)) * 2 ^ (8 * (n - 3)) := Nat.mod_le _ _
      _ ≤ x := Nat.div_mul_le_self x _

/-! ## Chain parameters and block index (modelled from the spec) -/

/-- Modelled from the spec: section 6 network identity, one of MAIN,
TESTNET, REGTEST. -/
inductive Network where
  | MAIN
  | TESTNET
  | REGTEST
deriving DecidableEq

/-- Numeric value of the network enumeration, in declaration order, as the
C++ unscoped enumeration converts to an integer. -/
def networkCode : Network → Nat
  | Network.MAIN => 0
  | Network.TESTNET => 1
  | Network.REGTEST => 2

/-- Modelled from the spec: section 6 network-parameters contract, together
with the fork-activation heights listed in section 3 (V3_FORK,
DIFF_SWITCH_HEIGHT, INFLATION_FIX_HEIGHT, DIFF2_SWITCH_HEIGHT are global
constants outside the provided sources). -/
structure ChainParams where
  proofOfWorkLimit : Nat → Nat
  targetSpacing : Int
  targetTimespan : Int
  allowMinDifficultyBlocks : Bool
  networkID : Network
  V3_FORK : Int
  DIFF_SWITCH_HEIGHT : Int
  INFLATION_FIX_HEIGHT : Int
  DIFF2_SWITCH_HEIGHT : Int

/-- Modelled from the spec: section 6 block-index read contract. Median
time past is a stored node attribute (GetMedianTimePast lives outside the
provided sources). -/
structure Block where
  nHeight : Int
  nTime : Int
  nMedianTimePast : Int
  nBits : Nat
  nAlgo : Nat

/-- A block-index pointer: the node itself followed by the chain of its
ancestors, tip first. The empty list is the null pointer and the tail is
the pprev link, so a pointer walk of k steps is List.drop k. -/
abbrev BlockIndex := List Block

/-- Modelled from the spec: section 6 lastBlockForAlgorithm — the nearest
ancestor (inclusive of the start node) mined with the given algorithm, or
null when none exists in the available history. The C++ helper lives in
main.cpp, outside the provided sources. -/
def GetLastBlockIndexForAlgo : BlockIndex → Nat → BlockIndex
  | [], _ => []
  | b :: rest, algo => if b.nAlgo = algo then b :: rest else GetLastBlockIndexForAlgo rest algo

/-! ## Constants, pow.cpp lines 17-31 -/

/-- Modelled from the spec: NUM_ALGOS, the number of mining algorithms.
The constant lives outside the provided sources; the comments on pow.cpp
lines 17-18 record its value as 3. -/
def NUM_ALGOS : Int := 3

def multiAlgoTargetTimespan : Int := 120

def multiAlgoTargetSpacing : Int := 120

def multiAlgoInterval : Int := 1

def nAveragingInterval : Int := 10

def nAveragingTargetTimespan : Int := nAveragingInterval * multiAlgoTargetSpacing

def nMaxAdjustDown : Int := 40

def nMaxAdjustUp : Int := 20

def nTargetTimespanAdjDown : Int := multiAlgoTargetTimespan * (100 + nMaxAdjustDown) / 100

def nLocalDifficultyAdjustment : Int := 40

def nMinActualTimespan : Int := nAveragingTargetTimespan * (100 - nMaxAdjustUp) / 100

def nMaxActualTimespan : Int := nAveragingTargetTimespan * (100 + nMaxAdjustDown) / 100

/-- Conversion of an int64_t value to the unsigned operand of a uint256
operation (spec section 4.1: multiply and divide by a small 64-bit
integer); a negative value converts modulo 2 ^ 64 as in C++. -/
def toU64 (i : Int) : Nat := (Int.emod i (2 ^ 64)).toNat

/-- Modelled from the spec: the scrypt algorithm id referenced by
CheckMinWork (the enumeration lives outside the provided sources; only
the scrypt slot matters here, its numeric value is irrelevant because the
ceiling is a per-algorithm function). -/
def ALGO_SCRYPT : Nat := 1

/-! ## CheckMinWork, pow.cpp lines 37-63 -/

/-- The while loop of CheckMinWork (pow.cpp lines 53-59), with an explicit
iteration budget. CheckMinWork supplies the budget deltaTime.toNat: when
the step (four times the target timespan) is at least 1 the loop runs at
most deltaTime iterations, so the budget never binds; for a non-positive
step the C++ loop would not terminate at all (spec section 4.1 excludes
non-positive timespans). The multiplication by 4 wraps modulo 2 ^ 256. -/
def minWorkLoop (bnLimit : Nat) (nStep : Int) : Nat → Int → Nat → Nat
  | 0, _, bnResult => bnResult
  | fuel + 1, deltaTime, bnResult =>
    if 0 < deltaTime ∧ bnResult < bnLimit then
      minWorkLoop bnLimit nStep fuel (deltaTime - nStep) (bnResult * 4 % 2 ^ 256)
    else bnResult

/-- CheckMinWork, pow.cpp lines 37-63. The decode of nBase on line 52
ignores the decode flags, so a truncated value is used as-is. The
identifier bnLimit read on lines 49 and 53 is not declared anywhere in
pow.cpp; modelled from the spec (section 4.4), which reads both bounds as
the scrypt proof-of-work ceiling, the same value as bnProofOfWorkLimit. -/
def CheckMinWork (p : ChainParams) (nBits nBase : Nat) (deltaTime : Int) : Bool :=
  if setCompactOverflow nBits then false
  else if p.allowMinDifficultyBlocks = true ∧ p.targetSpacing * 2 < deltaTime then
    decide (setCompactValue nBits ≤ p.proofOfWorkLimit ALGO_SCRYPT)
  else if p.proofOfWorkLimit ALGO_SCRYPT <
      minWorkLoop (p.proofOfWorkLimit ALGO_SCRYPT) (p.targetTimespan * 4)
        deltaTime.toNat deltaTime (setCompactValue nBase) then
    decide (setCompactValue nBits ≤ p.proofOfWorkLimit ALGO_SCRYPT)
  else
    decide (setCompactValue nBits ≤
      minWorkLoop (p.proofOfWorkLimit ALGO_SCRYPT) (p.targetTimespan * 4)
        deltaTime.toNat deltaTime (setCompactValue nBase))

/-! ## GetProofIncrement, pow.cpp lines 74-87 -/

/-- GetProofIncrement, pow.cpp lines 74-87: zero on an invalid decode,
otherwise the 256-bit computation of (complement of target) divided by
(target + 1), plus 1. The complement of a 256-bit value t is
2 ^ 256 - 1 - t; the increment of (target + 1) and the final addition of
1 wrap modulo 2 ^ 256 as uint256 arithmetic does. -/
def GetProofIncrement (nBits : Nat) : Nat :=
  if setCompactNegative nBits ∨ setCompactOverflow nBits ∨ setCompactValue nBits = 0 then 0
  else ((2 ^ 256 - 1 - setCompactValue nBits) / ((setCompactValue nBits + 1) % 2 ^ 256) + 1)
    % 2 ^ 256

/-! ## The retarget functions, pow.cpp lines 89-247 -/

/-- The era-dependent V1 retarget timespan of pow.cpp line 117: the base
timespan from the inflation-fix height on, five times the base timespan
before it. -/
def nTargetTimespanCurrentV1 (p : ChainParams) (nHeight : Int) : Int :=
  if p.INFLATION_FIX_HEIGHT ≤ nHeight then p.targetTimespan else p.targetTimespan * 5

/-- The era-dependent V1 retarget interval of pow.cpp line 118: timespan
divided by spacing from the inflation-fix height on, and timespan divided
by the halved spacing before it. -/
def nIntervalV1 (p : ChainParams) (nHeight : Int) : Int :=
  if p.INFLATION_FIX_HEIGHT ≤ nHeight then
    Int.tdiv (nTargetTimespanCurrentV1 p nHeight) p.targetSpacing
  else
    Int.tdiv (nTargetTimespanCurrentV1 p nHeight) (Int.tdiv p.targetSpacing 2)

/-- The walk-back length of the V1 retarget (pow.cpp lines 137-139): the
full interval, unless this is the first retarget after genesis, in which
case one block fewer. Takes the next height (pindexLast->nHeight + 1). -/
def blockstogobackV1 (p : ChainParams) (nHeight : Int) : Int :=
  if nHeight ≠ nIntervalV1 p nHeight then nIntervalV1 p nHeight
  else nIntervalV1 p nHeight - 1

/-- GetNextWorkRequiredV1, pow.cpp lines 108-178. Line 111 reads
pindexLast->nHeight before any null check, so a null pindexLast never
reaches the genesis check of line 126 (that check is unreachable and has
no image here); the assert(pindexFirst) of line 145 is a hard abort. Both
failure modes are embedded as none. -/
def GetNextWorkRequiredV1 (p : ChainParams) (pindexLast : BlockIndex) (algo : Nat) : Option Nat :=
  match pindexLast with
  | [] => none
  | last :: rest =>
    let nProofOfWorkLimit := getCompact (p.proofOfWorkLimit algo)
    let nHeight := last.nHeight + 1
    let fNewDifficultyProtocol := decide (p.DIFF_SWITCH_HEIGHT ≤ nHeight)
    let fDifficultySwitchHeightTwo := decide (p.DIFF2_SWITCH_HEIGHT ≤ nHeight)
    let nTargetTimespanCurrent := nTargetTimespanCurrentV1 p nHeight
    let nInterval := nIntervalV1 p nHeight
    if p.networkID = Network.TESTNET then some nProofOfWorkLimit
    else if Int.tmod (last.nHeight + 1) nInterval ≠ 0 then some last.nBits
    else
      match List.drop (blockstogobackV1 p (last.nHeight + 1)).toNat (last :: rest) with
      | [] => none
      | first :: _ =>
        let nActualTimespan0 := last.nTime - first.nTime
        let nActualTimespanMax0 :=
          if fNewDifficultyProtocol then nTargetTimespanCurrent * 2 else nTargetTimespanCurrent * 4
        let nActualTimespanMin0 :=
          if fNewDifficultyProtocol then Int.tdiv nTargetTimespanCurrent 2
          else Int.tdiv nTargetTimespanCurrent 4
        let nActualTimespanMax :=
          if fDifficultySwitchHeightTwo then Int.tdiv (nTargetTimespanCurrent * 75) 60
          else nActualTimespanMax0
        let nActualTimespanMin :=
          if fDifficultySwitchHeightTwo then Int.tdiv (nTargetTimespanCurrent * 55) 73
          else nActualTimespanMin0
        let nActualTimespan1 :=
          if nActualTimespan0 < nActualTimespanMin then nActualTimespanMin else nActualTimespan0
        let nActualTimespan :=
          if nActualTimespan1 > nActualTimespanMax then nActualTimespanMax else nActualTimespan1
        let bnNew1 := setCompactValue last.nBits * toU64 nActualTimespan % 2 ^ 256
        let bnNew2 := bnNew1 / toU64 nTargetTimespanCurrent
        let bnNew := if p.proofOfWorkLimit algo < bnNew2 then p.proofOfWorkLimit algo else bnNew2
        some (getCompact bnNew)

/-- GetNextWorkRequiredV2, pow.cpp lines 180-247. Every path returns a
value, so the result type is Nat. The per-algorithm correction loops of
lines 220-235 divide by 140 and multiply by 100 (respectively multiply by
140 and divide by 100) iteratively, each step wrapping modulo 2 ^ 256
after its multiplication. -/
def GetNextWorkRequiredV2 (p : ChainParams) (pindexLast : BlockIndex) (algo : Nat) : Nat :=
  match pindexLast with
  | [] => getCompact (p.proofOfWorkLimit algo)
  | last :: rest =>
    match GetLastBlockIndexForAlgo (last :: rest) algo,
        (last :: rest).drop (NUM_ALGOS * nAveragingInterval).toNat with
    | prevAlgo :: _, first :: _ =>
      let nActualTimespan0 := last.nMedianTimePast - first.nMedianTimePast
      let nActualTimespan1 :=
        nAveragingTargetTimespan + Int.tdiv (nActualTimespan0 - nAveragingTargetTimespan) 6
      let nActualTimespan2 :=
        if nActualTimespan1 < nMinActualTimespan then nMinActualTimespan else nActualTimespan1
      let nActualTimespan :=
        if nActualTimespan2 > nMaxActualTimespan then nMaxActualTimespan else nActualTimespan2
      let bnNew1 := setCompactValue prevAlgo.nBits * toU64 nActualTimespan % 2 ^ 256
      let bnNew2 := bnNew1 / toU64 nAveragingTargetTimespan
      let nAdjustments := prevAlgo.nHeight - last.nHeight + NUM_ALGOS - 1
      let bnNew3 :=
        if 0 < nAdjustments then
          (fun v => v / toU64 (100 + nLocalDifficultyAdjustment) * 100 % 2 ^ 256)^[nAdjustments.toNat]
            bnNew2
        else bnNew2
      let bnNew4 :=
        if nAdjustments < 0 then
          (fun v => v * toU64 (100 + nLocalDifficultyAdjustment) % 2 ^ 256 / 100)^[(-nAdjustments).toNat]
            bnNew3
        else bnNew3
      let bnNew := if p.proofOfWorkLimit algo < bnNew4 then p.proofOfWorkLimit algo else bnNew4
      getCompact bnNew
    | _, _ => getCompact (p.proofOfWorkLimit algo)

/-- The guard (!NetworkID()) == TESTNET of pow.cpp lines 96 and 100: by
C++ precedence the negation applies to the enum value first, so the guard
compares (NetworkID() == MAIN ? 1 : 0) with the numeric value of TESTNET,
which is 1 — the guard holds exactly on the MAIN network. -/
def notNetworkIDEqualsTestnet (p : ChainParams) : Bool :=
  decide ((if networkCode p.networkID = 0 then (1 : Nat) else 0) = networkCode Network.TESTNET)

/-- The dispatcher GetNextWorkRequired, pow.cpp lines 89-106. Line 91
reads pindexLast->nHeight with no null check, embedded as none on the
null pointer. When neither MAIN guard holds and the network is not
TESTNET (the REGTEST network), control falls off the end of the non-void
function, also embedded as none. -/
def GetNextWorkRequired (p : ChainParams) (pindexLast : BlockIndex) (algo : Nat) : Option Nat :=
  match pindexLast with
  | [] => none
  | last :: rest =>
    let nHeight := last.nHeight
    if p.networkID = Network.TESTNET then some 0x1d13ffec
    else if notNetworkIDEqualsTestnet p ∧ nHeight < p.V3_FORK then
      GetNextWorkRequiredV1 p (last :: rest) algo
    else if notNetworkIDEqualsTestnet p ∧ p.V3_FORK ≤ nHeight then
      some (GetNextWorkRequiredV2 p (last :: rest) algo)
    else none

/-- CheckProofOfWork, pow.cpp lines 249-265; the error(...) calls evaluate
to false. -/
def CheckProofOfWork (p : ChainParams) (hash : Nat) (nBits : Nat) (algo : Nat) : Bool :=
  if setCompactNegative nBits ∨ setCompactValue nBits = 0 ∨ setCompactOverflow nBits ∨
      p.proofOfWorkLimit algo < setCompactValue nBits then false
  else if setCompactValue nBits < hash then false
  else true

/-! ## Concrete values for witnesses and counterexamples -/

/-- A concrete main-network parameter set for the closed witnesses and
counterexamples: a small proof-of-work ceiling, spacing 40 and timespan
120 (so the post-inflation-fix V1 interval is 3), all fork heights active
from height 0 except V3_FORK. -/
def mainParams : ChainParams where
  proofOfWorkLimit := fun _ => 65536
  targetSpacing := 40
  targetTimespan := 120
  allowMinDifficultyBlocks := false
  networkID := Network.MAIN
  V3_FORK := 1000000
  DIFF_SWITCH_HEIGHT := 0
  INFLATION_FIX_HEIGHT := 0
  DIFF2_SWITCH_HEIGHT := 0

/-- The same parameters on the REGTEST network. -/
def regtestParams : ChainParams := { mainParams with networkID := Network.REGTEST }

/-- A tip at height 3 (so height 4 is next, not an interval boundary for
interval 3) whose recorded compact target decodes to 0x01234500, far
above the small ceiling of mainParams. -/
def blk4 : Block :=
  { nHeight := 3, nTime := 0, nMedianTimePast := 0, nBits := 0x04012345, nAlgo := 0 }

/-- A tip at height 5: height 6 is an interval boundary for interval 3, so
the V1 retarget fires and walks back 3 blocks, more than this one-block
chain provides. -/
def blk5 : Block :=
  { nHeight := 5, nTime := 0, nMedianTimePast := 0, nBits := 0x1d00ffff, nAlgo := 0 }

/-! ## Work increment lemmas -/

/-- A decoded target leaves headroom below 2 ^ 256: a shifted mantissa is
divisible by 2 ^ 8, so it cannot reach 2 ^ 256 - 1. -/
theorem setCompactValue_add_one_lt (nBits : Nat) : setCompactValue nBits + 1 < 2 ^ 256 := by
  unfold setCompactValue
  split
  · have h1 : nBits % 2 ^ 23 / 2 ^ (8 * (3 - nBits / 2 ^ 24)) ≤ nBits % 2 ^ 23 :=
      Nat.div_le_self _ _
    have h2 : nBits % 2 ^ 23 < 2 ^ 23 := Nat.mod_lt _ (by norm_num)
    omega
  · rename_i h
    have hs : 8 ≤ 8 * (nBits / 2 ^ 24 - 3) := by omega
    have hdvd : (2 : Nat) ^ 8 ∣ nBits % 2 ^ 23 * 2 ^ (8 * (nBits / 2 ^ 24 - 3)) :=
      Dvd.dvd.mul_left (pow_dvd_pow 2 hs) _
    have hdvd256 : (2 : Nat) ^ 8 ∣ 2 ^ 256 := pow_dvd_pow 2 (by norm_num)
    have hdvdmod : (2 : Nat) ^ 8 ∣ nBits % 2 ^ 23 * 2 ^ (8 * (nBits / 2 ^ 24 - 3)) % 2 ^ 256 :=
      (Nat.dvd_mod_iff hdvd256).mpr hdvd
    obtain ⟨m, hm⟩ := hdvdmod
    have hlt : nBits % 2 ^ 23 * 2 ^ (8 * (nBits / 2 ^ 24 - 3)) % 2 ^ 256 < 2 ^ 256 :=
      Nat.mod_lt _ (by positivity)
    omega

/-- The work increment formula of pow.cpp lines 74-87 computes exactly the
integer quotient 2 ^ 256 / (target + 1): neither the increment of the
divisor nor the final addition of 1 wraps. -/
theorem getProofIncrement_closed_form (nBits : Nat) :
    GetProofIncrement nBits =
      if setCompactNegative nBits ∨ setCompactOverflow nBits ∨ setCompactValue nBits = 0 then 0
      else 2 ^ 256 / (setCompactValue nBits + 1) := by
  unfold GetProofIncrement
  split
  · rfl
  · rename_i h
    have hz : setCompactValue nBits ≠ 0 := by tauto
    have h1 : setCompactValue nBits + 1 < 2 ^ 256 := setCompactValue_add_one_lt nBits
    rw [Nat.mod_eq_of_lt h1]
    have hdformula : (2 ^ 256 - 1 - setCompactValue nBits) / (setCompactValue nBits + 1) + 1 =
        2 ^ 256 / (setCompactValue nBits + 1) := by
      have hstep := Nat.div_eq_sub_div (show 0 < setCompactValue nBits + 1 by omega)
        (show setCompactValue nBits + 1 ≤ 2 ^ 256 by omega)
      have he : 2 ^ 256 - (setCompactValue nBits + 1) = 2 ^ 256 - 1 - setCompactValue nBits := by
        omega
      rw [hstep, he]
    rw [hdformula]
    apply Nat.mod_eq_of_lt
    have hhalf : 2 ^ 256 / (setCompactValue nBits + 1) ≤ 2 ^ 256 / 2 :=
      Nat.div_le_div_left (by omega) (by norm_num)
    omega

/-! ## Claim theorems -/

/-- C1: CheckProofOfWork(hash, nBits, algo) returns true if and only if
the decode of nBits is not negative, not overflowed, not zero, at most
the configured proof-of-work ceiling of the algorithm, and the hash is at
most the decoded target; in every other case it returns false. -/
theorem checkProofOfWork_iff (p : ChainParams) (hash nBits : Nat) (algo : Nat) :
    CheckProofOfWork p hash nBits algo = true ↔
      setCompactNegative nBits = false ∧ setCompactOverflow nBits = false ∧
      setCompactValue nBits ≠ 0 ∧ setCompactValue nBits ≤ p.proofOfWorkLimit algo ∧
      hash ≤ setCompactValue nBits := by
  unfold CheckProofOfWork
  split
  · rename_i h
    simp only [Bool.false_eq_true, false_iff]
    intro ⟨h1, h2, h3, h4, h5⟩
    rcases h with h | h | h | h
    · rw [h1] at h; exact absurd h (by simp)
    · exact h3 h
    · rw [h2] at h; exact absurd h (by simp)
    · omega
  · rename_i h
    push_neg at h
    obtain ⟨h1, h2, h3, h4⟩ := h
    split
    · rename_i h5
      simp only [Bool.false_eq_true, false_iff]
      intro ⟨_, _, _, _, h6⟩
      omega
    · rename_i h5
      simp only [true_iff]
      refine ⟨by simpa using h1, by simpa using h3, h2, h4, by omega⟩

/-- C8: GetProofIncrement(nBits) returns 0 when the decoded target is
negative, overflowed or zero, and otherwise returns the 256-bit value
(complement of target) / (target + 1) + 1, which is exactly the integer
quotient 2 ^ 256 / (target + 1). -/
theorem getProofIncrement_spec (nBits : Nat) :
    GetProofIncrement nBits =
      if setCompactNegative nBits ∨ setCompactOverflow nBits ∨ setCompactValue nBits = 0 then 0
      else 2 ^ 256 / (setCompactValue nBits + 1) :=
  getProofIncrement_closed_form nBits

/-- C9: for two compact targets that both decode without the negative or
overflow flag to nonzero targets, a smaller or equal decoded target gives
a greater or equal work increment. -/
theorem getProofIncrement_antitone (nBits1 nBits2 : Nat)
    (h1n : setCompactNegative nBits1 = false) (h1o : setCompactOverflow nBits1 = false)
    (h1z : setCompactValue nBits1 ≠ 0)
    (h2n : setCompactNegative nBits2 = false) (h2o : setCompactOverflow nBits2 = false)
    (h2z : setCompactValue nBits2 ≠ 0)
    (hle : setCompactValue nBits1 ≤ setCompactValue nBits2) :
    GetProofIncrement nBits2 ≤ GetProofIncrement nBits1 := by
  rw [getProofIncrement_closed_form, getProofIncrement_closed_form]
  rw [if_neg (by simp [h2n, h2o, h2z]), if_neg (by simp [h1n, h1o, h1z])]
  exact Nat.div_le_div_left (by omega) (by omega)

/-- C9 witness: the monotonicity theorem applied at the concrete compact
targets 0x1c00ffff and 0x1d00ffff. -/
theorem getProofIncrement_antitone_witness :
    setCompactNegative 0x1c00ffff = false ∧ setCompactOverflow 0x1c00ffff = false ∧
    setCompactValue 0x1c00ffff ≠ 0 ∧
    setCompactNegative 0x1d00ffff = false ∧ setCompactOverflow 0x1d00ffff = false ∧
    setCompactValue 0x1d00ffff ≠ 0 ∧
    setCompactValue 0x1c00ffff ≤ setCompactValue 0x1d00ffff ∧
    GetProofIncrement 0x1d00ffff ≤ GetProofIncrement 0x1c00ffff :=
  ⟨by decide, by decide, by decide, by decide, by decide, by decide, by decide,
    getProofIncrement_antitone 0x1c00ffff 0x1d00ffff (by decide) (by decide) (by decide)
      (by decide) (by decide) (by decide) (by decide)⟩

/-- C10: every compact target that decodes without the negative or
overflow flag to a nonzero target contributes a work increment of at
least 1, so accumulated chain work strictly increases with each such
block. -/
theorem getProofIncrement_pos (nBits : Nat)
    (hn : setCompactNegative nBits = false) (ho : setCompactOverflow nBits = false)
    (hz : setCompactValue nBits ≠ 0) :
    1 ≤ GetProofIncrement nBits := by
  rw [getProofIncrement_closed_form, if_neg (by simp [hn, ho, hz])]
  rw [Nat.one_le_div_iff (by omega)]
  have := setCompactValue_lt nBits
  omega

/-- C10 witness: the positivity theorem applied at the concrete compact
target 0x1d00ffff. -/
theorem getProofIncrement_pos_witness :
    setCompactNegative 0x1d00ffff = false ∧ setCompactOverflow 0x1d00ffff = false ∧
    setCompactValue 0x1d00ffff ≠ 0 ∧ 1 ≤ GetProofIncrement 0x1d00ffff :=
  ⟨by decide, by decide, by decide,
    getProofIncrement_pos 0x1d00ffff (by decide) (by decide) (by decide)⟩

/-- C2 (failing input): on the REGTEST network the TESTNET branch of the
dispatcher does not fire and neither guard (!NetworkID()) == TESTNET
holds, so control falls off the end of the non-void GetNextWorkRequired
without returning (none in the embedding), contradicting the claim that
the three branches are exhaustive for every network. -/
theorem getNextWorkRequired_regtest_falls_through :
    GetNextWorkRequired regtestParams [blk5] 0 = none := by decide

/-- C3 (failing input): with a null previous block the dispatcher reads
pindexLast->nHeight before any branch (pow.cpp line 91) and V1 likewise
(line 111), so neither returns the ceiling; only V2 checks the null
pointer first and returns the encoded ceiling. -/
theorem getNextWorkRequired_null_prev_crashes :
    GetNextWorkRequired mainParams [] 0 = none ∧
    GetNextWorkRequiredV1 mainParams [] 0 = none ∧
    GetNextWorkRequiredV2 mainParams [] 0 = getCompact (mainParams.proofOfWorkLimit 0) :=
  ⟨by decide, by decide, by decide⟩

/-- C5 counterexample: when the V1 retarget fires (height 6, interval 3)
on a one-block chain, the walk back runs out of ancestors and the
assert(pindexFirst) of pow.cpp line 145 aborts (none in the embedding)
instead of returning the ceiling. -/
theorem v1_insufficient_history_aborts :
    GetNextWorkRequiredV1 mainParams [blk5] 0 = none := by decide

/-- C5 amended: V2 recovers from insufficient history — fewer than
NUM_ALGOS * 10 ancestors, or no block of the requested algorithm in the
available history — by returning the encoded ceiling of the algorithm;
V1 instead aborts on its assert when the retarget fires with too few
ancestors. -/
theorem v2_insufficient_history_returns_ceiling (p : ChainParams) (pindexLast : BlockIndex)
    (algo : Nat)
    (h : pindexLast.length ≤ 30 ∨ GetLastBlockIndexForAlgo pindexLast algo = []) :
    GetNextWorkRequiredV2 p pindexLast algo = getCompact (p.proofOfWorkLimit algo) := by
  unfold GetNextWorkRequiredV2
  cases pindexLast with
  | nil => rfl
  | cons last rest =>
    dsimp only
    rcases h with h | h
    · have hdrop : List.drop (NUM_ALGOS * nAveragingInterval).toNat (last :: rest) = [] := by
        apply List.drop_eq_nil_of_le
        have h30 : (NUM_ALGOS * nAveragingInterval).toNat = 30 := by decide
        rw [h30]
        exact h
      rw [hdrop]
      cases GetLastBlockIndexForAlgo (last :: rest) algo <;> rfl
    · rw [h]

/-- C5 amended, witness: a one-block chain has at most 30 entries, and V2
returns the encoded ceiling on it. -/
theorem v2_insufficient_history_returns_ceiling_witness :
    ([blk5] : BlockIndex).length ≤ 30 ∧
    GetNextWorkRequiredV2 mainParams [blk5] 0 = getCompact (mainParams.proofOfWorkLimit 0) :=
  ⟨by decide, v2_insufficient_history_returns_ceiling mainParams [blk5] 0 (Or.inl (by decide))⟩

/-- C6: in V1 the retarget timespan is the base timespan from the
inflation-fix height on and five times the base timespan below it, and
the retarget interval is timespan divided by spacing, where below the
inflation-fix height the spacing is halved. -/
theorem v1_timespan_interval_eras (p : ChainParams) (nHeight : Int) :
    (nHeight < p.INFLATION_FIX_HEIGHT →
      nTargetTimespanCurrentV1 p nHeight = p.targetTimespan * 5 ∧
      nIntervalV1 p nHeight =
        Int.tdiv (p.targetTimespan * 5) (Int.tdiv p.targetSpacing 2)) ∧
    (p.INFLATION_FIX_HEIGHT ≤ nHeight →
      nTargetTimespanCurrentV1 p nHeight = p.targetTimespan ∧
      nIntervalV1 p nHeight = Int.tdiv p.targetTimespan p.targetSpacing) := by
  constructor
  · intro h
    have hnot : ¬ p.INFLATION_FIX_HEIGHT ≤ nHeight := by omega
    unfold nIntervalV1 nTargetTimespanCurrentV1
    simp only [if_neg hnot]
    exact ⟨trivial, trivial⟩
  · intro h
    unfold nIntervalV1 nTargetTimespanCurrentV1
    simp only [if_pos h]
    exact ⟨trivial, trivial⟩

/-- C6 witness: the era theorem applied below the fix height (next height
-1) and above it (next height 5) on the concrete parameters. -/
theorem v1_timespan_interval_eras_witness :
    ((-1 : Int) < mainParams.INFLATION_FIX_HEIGHT ∧
      nTargetTimespanCurrentV1 mainParams (-1) = mainParams.targetTimespan * 5 ∧
      nIntervalV1 mainParams (-1) =
        Int.tdiv (mainParams.targetTimespan * 5) (Int.tdiv mainParams.targetSpacing 2)) ∧
    (mainParams.INFLATION_FIX_HEIGHT ≤ 5 ∧
      nTargetTimespanCurrentV1 mainParams 5 = mainParams.targetTimespan ∧
      nIntervalV1 mainParams 5 = Int.tdiv mainParams.targetTimespan mainParams.targetSpacing) :=
  ⟨⟨by decide, (v1_timespan_interval_eras mainParams (-1)).1 (by decide)⟩,
    ⟨by decide, (v1_timespan_interval_eras mainParams 5).2 (by decide)⟩⟩

/-- C7 counterexample: with deltaTime 0 and no minimum-difficulty
relaxation, both compact words decode without overflow and the claimed
target 0x020000 is at most the base target 0x7fffff00, yet CheckMinWork
returns false: the code clamps the base target to the scrypt ceiling
(65536 in mainParams) before the final comparison. -/
theorem checkMinWork_deltaZero_cex :
    CheckMinWork mainParams 0x03020000 0x047fffff 0 = false ∧
    mainParams.allowMinDifficultyBlocks = false ∧
    setCompactOverflow 0x03020000 = false ∧ setCompactOverflow 0x047fffff = false ∧
    setCompactValue 0x03020000 ≤ setCompactValue 0x047fffff :=
  ⟨by decide, by decide, by decide, by decide, by decide⟩

/-- C7 amended: with deltaTime 0, on a network without minimum-difficulty
relaxation and with nBits decoding without overflow, CheckMinWork returns
true iff the decoded claimed target is at most the minimum of the decoded
base target and the scrypt proof-of-work ceiling. -/
theorem checkMinWork_deltaZero_amended (p : ChainParams) (nBits nBase : Nat)
    (hmin : p.allowMinDifficultyBlocks = false)
    (ho1 : setCompactOverflow nBits = false) (ho2 : setCompactOverflow nBase = false) :
    (CheckMinWork p nBits nBase 0 = true ↔
      setCompactValue nBits ≤ min (setCompactValue nBase) (p.proofOfWorkLimit ALGO_SCRYPT)) := by
  unfold CheckMinWork
  rw [if_neg (by simp [ho1])]
  rw [if_neg (by simp [hmin])]
  have hloop : minWorkLoop (p.proofOfWorkLimit ALGO_SCRYPT) (p.targetTimespan * 4)
      (Int.toNat 0) 0 (setCompactValue nBase) = setCompactValue nBase := rfl
  rw [hloop]
  split
  · rename_i hlt
    rw [min_eq_right (le_of_lt hlt)]
    simp only [decide_eq_true_eq]
  · rename_i hnlt
    rw [min_eq_left (Nat.le_of_not_lt hnlt)]
    simp only [decide_eq_true_eq]

/-- C7 amended, witness: the amended theorem applied at the concrete
compact words 0x03010000 and 0x03020000 on the concrete parameters. -/
theorem checkMinWork_deltaZero_amended_witness :
    mainParams.allowMinDifficultyBlocks = false ∧
    setCompactOverflow 0x03010000 = false ∧ setCompactOverflow 0x03020000 = false ∧
    (CheckMinWork mainParams 0x03010000 0x03020000 0 = true ↔
      setCompactValue 0x03010000 ≤
        min (setCompactValue 0x03020000) (mainParams.proofOfWorkLimit ALGO_SCRYPT)) :=
  ⟨by decide, by decide, by decide,
    checkMinWork_deltaZero_amended mainParams 0x03010000 0x03020000 (by decide) (by decide)
      (by decide)⟩

/-- C4 counterexample: at a height that is not an interval boundary V1
returns the previous-block compact target unchanged (pow.cpp line 132),
and that target can decode far above the ceiling: 0x04012345 decodes to
0x01234500, above the ceiling 65536 of mainParams. -/
theorem v1_carry_forward_exceeds_ceiling :
    GetNextWorkRequiredV1 mainParams [blk4] 0 = some 0x04012345 ∧
    mainParams.proofOfWorkLimit 0 < setCompactValue 0x04012345 :=
  ⟨by decide, by decide⟩

/-- The clamp-then-encode tail shared by the V1 and V2 retarget paths:
clamping to the ceiling and encoding yields a value that decodes to at
most the ceiling. -/
theorem setCompact_getCompact_ite_le (limit B : Nat) (hlim : limit < 256 ^ 64) :
    setCompactValue (getCompact (if limit < B then limit else B)) ≤ limit := by
  split
  · exact setCompact_getCompact_le _ hlim
  · rename_i hX
    exact le_trans
      (setCompact_getCompact_le _ (lt_of_le_of_lt (Nat.le_of_not_lt hX) hlim))
      (Nat.le_of_not_lt hX)

/-- C4 amended: every V2 output decodes to at most the ceiling of the
algorithm, and every V1 output either decodes to at most the ceiling or
is the unchanged previous-block compact target of the carry-forward path
(pow.cpp line 132), which can exceed the ceiling. -/
theorem retarget_outputs_le_ceiling (p : ChainParams) (pindexLast : BlockIndex) (algo : Nat)
    (hlim : p.proofOfWorkLimit algo < 2 ^ 256) :
    setCompactValue (GetNextWorkRequiredV2 p pindexLast algo) ≤ p.proofOfWorkLimit algo ∧
    (∀ r, GetNextWorkRequiredV1 p pindexLast algo = some r →
      setCompactValue r ≤ p.proofOfWorkLimit algo ∨
        ∃ b rest, pindexLast = b :: rest ∧ r = b.nBits) := by
  have hlim64 : p.proofOfWorkLimit algo < 256 ^ 64 := by
    calc p.proofOfWorkLimit algo < 2 ^ 256 := hlim
    _ ≤ 256 ^ 64 := by norm_num
  constructor
  · unfold GetNextWorkRequiredV2
    cases pindexLast with
    | nil => exact setCompact_getCompact_le _ hlim64
    | cons last rest =>
      dsimp only
      cases GetLastBlockIndexForAlgo (last :: rest) algo with
      | nil => exact setCompact_getCompact_le _ hlim64
      | cons pa par =>
        cases List.drop (NUM_ALGOS * nAveragingInterval).toNat (last :: rest) with
        | nil => exact setCompact_getCompact_le _ hlim64
        | cons f fr =>
          dsimp only
          exact setCompact_getCompact_ite_le _ _ hlim64
  · intro r hr
    unfold GetNextWorkRequiredV1 at hr
    cases pindexLast with
    | nil => exact absurd hr (by simp)
    | cons last rest =>
      dsimp only at hr
      by_cases htn : p.networkID = Network.TESTNET
      · rw [if_pos htn] at hr
        simp only [Option.some.injEq] at hr
        left
        rw [← hr]
        exact setCompact_getCompact_le _ hlim64
      · rw [if_neg htn] at hr
        by_cases hmod : Int.tmod (last.nHeight + 1) (nIntervalV1 p (last.nHeight + 1)) ≠ 0
        · rw [if_pos hmod] at hr
          simp only [Option.some.injEq] at hr
          right
          exact ⟨last, rest, rfl, hr.symm⟩
        · rw [if_neg hmod] at hr
          rcases hdp : List.drop (blockstogobackV1 p (last.nHeight + 1)).toNat (last :: rest)
            with _ | ⟨first, frest⟩
          · rw [hdp] at hr
            exact absurd hr (by simp)
          · rw [hdp] at hr
            dsimp only at hr
            simp only [Option.some.injEq] at hr
            left
            rw [← hr]
            exact setCompact_getCompact_ite_le _ _ hlim64

/-- C4 amended, witness: the clamping theorem applied to the genesis call
of V2 on the concrete parameters. -/
theorem retarget_outputs_le_ceiling_witness :
    mainParams.proofOfWorkLimit 0 < 2 ^ 256 ∧
    setCompactValue (GetNextWorkRequiredV2 mainParams [] 0) ≤ mainParams.proofOfWorkLimit 0 :=
  ⟨by decide, (retarget_outputs_le_ceiling mainParams [] 0 (by decide)).1⟩

end Digitalcoin
